import Mathlib

/-!
# Verification of the Gemini File Search client

A shallow embedding of the Gemini File Search plugin's core client module
(`gemini-client.ts`) together with the query tool's input validation
(`query-tool.ts`), and proofs of the specified properties.

The embedding models:
* JavaScript string primitives used by the code (`trim`, `startsWith`,
  `Array.slice`, the `||` / `??` operators) over `List Char` / `String`;
  whitespace is modelled with `Char.isWhitespace` (ASCII whitespace);
* the configuration records and fixed constants from `types.ts`;
* `buildHeaders`, `normalizeStoreName`, the model/cap resolution and
  store truncation performed by `queryFileSearch` up to the point where the
  HTTP request is issued (`queryFileSearchPrep`), and the response handling
  of both `listFileSearchStores` and `queryFileSearch`
  (`listStoresHandleResponse`, `queryHandleResponse`).

URL string construction (`resolveBaseUrl`, `encodeURIComponent` and the
final URL concatenation) is not modelled: no verified property concerns it;
the semantic content of the outgoing request (API key, headers, model,
query text, store-name list, timeout) is carried by `QueryRequest`.
-/

deriving instance DecidableEq for Except

namespace OpenClaw.GeminiFileSearch

/-! ## JavaScript string primitives -/

/-- Whitespace predicate used to model JS `String.prototype.trim`. -/
def wsChar (c : Char) : Bool := c.isWhitespace

/-- Drop leading whitespace characters. -/
def trimLeftChars (l : List Char) : List Char := l.dropWhile wsChar

/-- Drop trailing whitespace characters. -/
def trimRightChars (l : List Char) : List Char := (l.reverse.dropWhile wsChar).reverse

/-- Drop whitespace at both ends, as JS `trim` does. -/
def trimChars (l : List Char) : List Char := trimRightChars (trimLeftChars l)

/-- Model of JS `s.trim()`. -/
def jsTrim (s : String) : String := ⟨trimChars s.data⟩

/-- Model of JS `s.startsWith(pat)`. -/
def jsStartsWith (s pat : String) : Bool := pat.data.isPrefixOf s.data

/-- Model of JS `a || b` for a possibly-absent string `a`:
`undefined` and the empty string are falsy. -/
def jsOr (a : Option String) (b : String) : String :=
  match a with
  | some s => if s = "" then b else s
  | none => b

/-- Model of JS truthiness of a possibly-absent string
(`undefined` and `""` are falsy). -/
def jsTruthy (x : Option String) : Bool :=
  match x with
  | some s => s != ""
  | none => false

/-- Model of JS `arr.slice(0, e)` where `e` may be negative
(a negative end counts from the end of the array). -/
def jsSliceFrom0 (l : List String) (e : Int) : List String :=
  if e < 0 then l.take ((l.length : Int) + e).toNat else l.take e.toNat

/-! ## Constants and configuration records (`types.ts`) -/

/-- Constant `DEFAULT_MODEL` from `types.ts`. -/
def DEFAULT_MODEL : String := "gemini-2.5-flash"

/-- Constant `DEFAULT_TIMEOUT_MS` from `types.ts`. -/
def DEFAULT_TIMEOUT_MS : Nat := 30000

/-- Constant `MAX_STORES_HARD_LIMIT` from `types.ts`. -/
def MAX_STORES_HARD_LIMIT : Int := 5

/-- Record `PluginCfg` from `types.ts`: all fields optional. -/
structure PluginCfg where
  defaultModel : Option String := none
  maxStoresPerQuery : Option Int := none
  timeoutMs : Option Nat := none
deriving DecidableEq

/-- The `google` provider section of the host configuration
(`config?.models?.providers?.google`).  A JS header object is modelled as
an association list in which a later entry overrides an earlier one. -/
structure GoogleProviderCfg where
  baseUrl : Option String := none
  headers : Option (List (String × String)) := none
deriving DecidableEq

/-- The `providers` section of the host configuration. -/
structure ProvidersCfg where
  google : Option GoogleProviderCfg := none
deriving DecidableEq

/-- The `models` section of the host configuration. -/
structure ModelsCfg where
  providers : Option ProvidersCfg := none
deriving DecidableEq

/-- The host configuration (`OpenClawConfig`), restricted to the fields the
client reads. -/
structure OpenClawConfig where
  models : Option ModelsCfg := none
deriving DecidableEq

/-! ## Headers (`buildHeaders`) -/

/-- The header object a JS map lookup sees: with `{...a, ...b}` the later
entry wins, so the effective value of a key is the value of its LAST
occurrence in the association list. -/
def headerValue (headers : List (String × String)) (key : String) : Option String :=
  (headers.reverse.find? (fun p => p.fst == key)).map Prod.snd

/-- Expression `config?.models?.providers?.google?.headers`, defaulting to the empty
object when any step is absent (spreading `undefined` adds nothing). -/
def providerHeaders (config : Option OpenClawConfig) : List (String × String) :=
  (((config.bind OpenClawConfig.models).bind ModelsCfg.providers).bind
      ProvidersCfg.google).bind GoogleProviderCfg.headers |>.getD []

/-- Function `buildHeaders` from `gemini-client.ts`:
`{ "Content-Type": "application/json", "x-goog-api-key": apiKey, ...providerHeaders }`.
The spread of the host headers comes after the fixed entries. -/
def buildHeaders (apiKey : String) (config : Option OpenClawConfig) :
    List (String × String) :=
  [("Content-Type", "application/json"), ("x-goog-api-key", apiKey)] ++
    providerHeaders config

/-! ## Store-name normalization, model and cap resolution -/

/-- Function `normalizeStoreName` from `gemini-client.ts`: trim, then prepend
the canonical resource-name pre-string unless the trimmed name already starts
with it. -/
def normalizeStoreName (name : String) : String :=
  if jsStartsWith (jsTrim name) "fileSearchStores/" then jsTrim name
  else "fileSearchStores/" ++ jsTrim name

/-- The model-selection expression of `queryFileSearch`:
`params.model?.trim() || pluginCfg.defaultModel?.trim() || DEFAULT_MODEL`. -/
def resolveModel (modelOverride : Option String) (cfgDefault : Option String) : String :=
  jsOr (modelOverride.map jsTrim) (jsOr (cfgDefault.map jsTrim) DEFAULT_MODEL)

/-- The cap expression of `queryFileSearch`:
`Math.min(pluginCfg.maxStoresPerQuery ?? MAX_STORES_HARD_LIMIT, MAX_STORES_HARD_LIMIT)`. -/
def effectiveMaxStores (maxStoresPerQuery : Option Int) : Int :=
  min (maxStoresPerQuery.getD MAX_STORES_HARD_LIMIT) MAX_STORES_HARD_LIMIT

/-! ## The pre-network phase of `queryFileSearch` -/

/-- Failures of `queryFileSearch` before the HTTP request is issued. -/
inductive QueryError where
  | credential (msg : String)
  | validation (msg : String)
deriving DecidableEq

/-- The semantic content of the `generateContent` request that
`queryFileSearch` sends: everything the provider call depends on. -/
structure QueryRequest where
  apiKey : String
  headers : List (String × String)
  timeoutMs : Nat
  model : String
  queryText : String
  storeNames : List String
deriving DecidableEq

/-- The part of `queryFileSearch` that runs before `fetch`:
credential resolution (`await resolveApiKey`, modelled by the `cred`
argument, which is the first thing consumed), configuration resolution,
model and cap selection, store truncation and normalization, and the
non-empty-store validation.  Produces the request on success; any
`.error` result means no HTTP request is made. -/
def queryFileSearchPrep (cred : Except String String) (query : String)
    (stores : List String) (modelOverride : Option String)
    (config : Option OpenClawConfig) (pluginCfg : Option PluginCfg) :
    Except QueryError QueryRequest :=
  match cred with
  | .error e => .error (.credential e)
  | .ok apiKey =>
    let cfg := pluginCfg.getD {}
    let storeNames :=
      (jsSliceFrom0 stores (effectiveMaxStores cfg.maxStoresPerQuery)).map
        normalizeStoreName
    if storeNames.isEmpty then
      .error (.validation "At least one store name is required")
    else
      .ok { apiKey := apiKey
            headers := buildHeaders apiKey config
            timeoutMs := cfg.timeoutMs.getD DEFAULT_TIMEOUT_MS
            model := resolveModel modelOverride cfg.defaultModel
            queryText := query
            storeNames := storeNames }

/-! ## Tool-layer validation (`query-tool.ts`) -/

/-- The validation performed by the `gemini_file_search` tool's `execute`
before `queryFileSearch` is called: trim the query and reject a blank one,
then reject an empty store array. -/
def queryToolValidate (query : String) (stores : List String) :
    Except String (String × List String) :=
  let q := jsTrim query
  if q = "" then .error "query is required"
  else if stores.isEmpty then .error "at least one store is required"
  else .ok (q, stores)

/-- The tool layer followed by the core's pre-network phase: the tool
validates first (so its failures happen before the core ever runs), trims
the per-call model (empty-after-trim becomes absent), then calls the core. -/
def queryToolPrep (cred : Except String String) (query : String)
    (stores : List String) (modelOverride : Option String)
    (config : Option OpenClawConfig) (pluginCfg : Option PluginCfg) :
    Except QueryError QueryRequest :=
  match queryToolValidate query stores with
  | .error e => .error (.validation e)
  | .ok (q, ss) =>
    let m := modelOverride.bind fun s =>
      let t := jsTrim s
      if t = "" then none else some t
    queryFileSearchPrep cred q ss m config pluginCfg

/-! ## Response handling -/

/-- A store as returned by the provider (`FileSearchStore` in `types.ts`). -/
structure FileSearchStore where
  name : String
  displayName : Option String := none
  description : Option String := none
deriving DecidableEq

/-- Predicate `res.ok` of the Fetch API: status in the inclusive range 200–299. -/
def resOk (status : Nat) : Bool := 200 ≤ status && status < 300

/-- Response handling of `listFileSearchStores`: on a non-success status the
call throws an error embedding the status and the raw body text; on success
it returns `data.fileSearchStores ?? []`. -/
def listStoresHandleResponse (status : Nat) (bodyText : String)
    (stores : Option (List FileSearchStore)) :
    Except String (List FileSearchStore) :=
  if resOk status then .ok (stores.getD [])
  else .error ("Gemini listFileSearchStores failed: " ++ toString status ++ " " ++ bodyText)

/-- Record `ContentPart` from `types.ts`. -/
structure ContentPart where
  text : Option String := none
deriving DecidableEq

/-- The `retrievedContext` object of a grounding chunk. -/
structure RetrievedContext where
  uri : Option String := none
  title : Option String := none
deriving DecidableEq

/-- Record `GroundingChunk` from `types.ts`. -/
structure GroundingChunk where
  retrievedContext : Option RetrievedContext := none
deriving DecidableEq

/-- Record `GroundingMetadata` from `types.ts`. -/
structure GroundingMetadata where
  groundingChunks : Option (List GroundingChunk) := none
deriving DecidableEq

/-- The `content` object of a candidate. -/
structure CandidateContent where
  parts : Option (List ContentPart) := none
deriving DecidableEq

/-- Record `ContentCandidate` from `types.ts`. -/
structure ContentCandidate where
  content : Option CandidateContent := none
  groundingMetadata : Option GroundingMetadata := none
deriving DecidableEq

/-- Record `GenerateContentResponse` from `types.ts`. -/
structure GenerateContentResponse where
  candidates : Option (List ContentCandidate) := none
deriving DecidableEq

/-- A citation source of a query result. -/
structure Source where
  title : String
  uri : String
deriving DecidableEq

/-- The result shape of `queryFileSearch`. -/
structure QueryResult where
  answer : String
  sources : List Source
deriving DecidableEq

/-- Expression `data.candidates?.[0]`. -/
def firstCandidate (data : GenerateContentResponse) : Option ContentCandidate :=
  (data.candidates.getD []).head?

/-- The answer expression of `queryFileSearch`:
`candidate?.content?.parts?.map((p) => p.text ?? "").join("").trim() ?? ""`. -/
def extractAnswer (data : GenerateContentResponse) : String :=
  match (firstCandidate data).bind (fun c => c.content.bind CandidateContent.parts) with
  | none => ""
  | some ps => jsTrim (String.join (ps.map (fun p => p.text.getD "")))

/-- The source-emission step of the loop in `queryFileSearch`:
a chunk is kept when `ctx?.uri || ctx?.title` is truthy, with
`title: ctx.title ?? ctx.uri ?? ""` and `uri: ctx.uri ?? ""`. -/
def chunkToSource (chunk : GroundingChunk) : Option Source :=
  match chunk.retrievedContext with
  | none => none
  | some ctx =>
    if jsTruthy ctx.uri || jsTruthy ctx.title then
      some { title := (ctx.title.or ctx.uri).getD "", uri := ctx.uri.getD "" }
    else none

/-- The chunk list `candidate?.groundingMetadata?.groundingChunks ?? []`. -/
def firstCandidateChunks (data : GenerateContentResponse) : List GroundingChunk :=
  (((firstCandidate data).bind ContentCandidate.groundingMetadata).bind
    GroundingMetadata.groundingChunks).getD []

/-- The source-collection loop of `queryFileSearch`. -/
def extractSources (data : GenerateContentResponse) : List Source :=
  (firstCandidateChunks data).filterMap chunkToSource

/-- Response handling of `queryFileSearch`: on a non-success status the call
throws an error embedding the status and the raw body text; on success it
extracts the answer and the sources. -/
def queryHandleResponse (status : Nat) (bodyText : String)
    (data : GenerateContentResponse) : Except String QueryResult :=
  if resOk status then .ok { answer := extractAnswer data, sources := extractSources data }
  else .error ("Gemini generateContent failed: " ++ toString status ++ " " ++ bodyText)

/-! ## Spec-side comparison definitions (for the response-extraction claim) -/

/-- Spec-side comparison definition for the answer, written from the spec's
words: concatenate all text parts of the first candidate's content into the
answer, trimmed; if no candidates exist the answer is the empty string. -/
def specAnswer (data : GenerateContentResponse) : String :=
  match data.candidates with
  | none => ""
  | some [] => ""
  | some (c :: _) =>
    jsTrim (String.join (((c.content.bind CandidateContent.parts).getD []).map
      (fun p => p.text.getD "")))

/-- Spec-side comparison definition for one source, written from the spec's
words: for each chunk with a retrieved-context object that has a non-empty
URI or a non-empty title, emit a source whose title falls back to the URI
when the title is absent and whose URI falls back to the empty string when
absent; chunks with neither are dropped entirely. -/
def specChunkSource (chunk : GroundingChunk) : Option Source :=
  chunk.retrievedContext.bind fun ctx =>
    if ctx.uri.getD "" ≠ "" ∨ ctx.title.getD "" ≠ "" then
      some { title := match ctx.title with
                      | some t => t
                      | none => ctx.uri.getD ""
             uri := ctx.uri.getD "" }
    else none

/-- Spec-side comparison definition for the source list: one source per
qualifying grounding chunk of the first candidate, in chunk order. -/
def specSources (data : GenerateContentResponse) : List Source :=
  (firstCandidateChunks data).filterMap specChunkSource

/-- A host configuration whose provider-specific headers contain the
API-key header name itself. -/
def hostKeyConfig : OpenClawConfig :=
  OpenClawConfig.mk (some (ModelsCfg.mk (some (ProvidersCfg.mk (some
    (GoogleProviderCfg.mk none (some [("x-goog-api-key", "host-key")])))))))

/-! ## Lemmas about the string primitives -/

theorem dropWhile_dropWhile_eq (p : α → Bool) (l : List α) :
    (l.dropWhile p).dropWhile p = l.dropWhile p := by
  cases h : l.dropWhile p with
  | nil => simp
  | cons x xs =>
    have hx := List.head?_dropWhile_not p l
    rw [h] at hx
    simp only [List.head?_cons] at hx
    exact List.dropWhile_cons_of_neg (by simp [hx])

theorem trimRightChars_idem (l : List Char) :
    trimRightChars (trimRightChars l) = trimRightChars l := by
  unfold trimRightChars
  rw [List.reverse_reverse, dropWhile_dropWhile_eq]

theorem trimRightChars_isPrefix (l : List Char) : trimRightChars l <+: l := by
  unfold trimRightChars
  exact List.reverse_suffix.mp (by rw [List.reverse_reverse]; exact List.dropWhile_suffix wsChar)

theorem trimLeftChars_trimChars (l : List Char) :
    trimLeftChars (trimChars l) = trimChars l := by
  cases h : trimChars l with
  | nil => simp [trimLeftChars]
  | cons x xs =>
    obtain ⟨t, ht⟩ := trimRightChars_isPrefix (trimLeftChars l)
    rw [show trimRightChars (trimLeftChars l) = trimChars l from rfl, h] at ht
    have hx := List.head?_dropWhile_not wsChar l
    rw [show l.dropWhile wsChar = trimLeftChars l from rfl, ← ht] at hx
    simp only [List.cons_append, List.head?_cons] at hx
    exact List.dropWhile_cons_of_neg (by simp [hx])

theorem trimChars_idem (l : List Char) : trimChars (trimChars l) = trimChars l := by
  have h1 : trimChars (trimChars l) = trimRightChars (trimLeftChars (trimChars l)) := rfl
  rw [h1, trimLeftChars_trimChars]
  exact trimRightChars_idem (trimLeftChars l)

theorem trimChars_reverse_dropWhile (l : List Char) :
    List.dropWhile wsChar (trimChars l).reverse = (trimChars l).reverse := by
  have h1 : (trimChars l).reverse = List.dropWhile wsChar (trimLeftChars l).reverse := by
    unfold trimChars trimRightChars
    rw [List.reverse_reverse]
  rw [h1, dropWhile_dropWhile_eq]

theorem isPrefixOf_self_append (P T : List Char) : P.isPrefixOf (P ++ T) = true := by
  induction P with
  | nil => simp
  | cons c cs ih => simp [List.isPrefixOf, ih]

theorem trimChars_storeName_append (T : List Char)
    (hT : List.dropWhile wsChar T.reverse = T.reverse) :
    trimChars ("fileSearchStores/".data ++ T) = "fileSearchStores/".data ++ T := by
  rcases eq_or_ne T [] with rfl | hne
  · decide
  · have h1 : trimLeftChars ("fileSearchStores/".data ++ T) = "fileSearchStores/".data ++ T := by
      show List.dropWhile wsChar ('f' :: ("ileSearchStores/".data ++ T)) =
        'f' :: ("ileSearchStores/".data ++ T)
      exact List.dropWhile_cons_of_neg (by decide)
    have h2 : T.reverse.isEmpty = false := by
      cases hrev : T.reverse with
      | nil => exact absurd (by simpa using congrArg List.reverse hrev) hne
      | cons a as => rfl
    show trimRightChars (trimLeftChars ("fileSearchStores/".data ++ T)) =
      "fileSearchStores/".data ++ T
    rw [h1]
    unfold trimRightChars
    rw [List.reverse_append, List.dropWhile_append, hT, h2]
    simp

theorem jsTrim_idem (s : String) : jsTrim (jsTrim s) = jsTrim s := by
  show String.mk (trimChars (trimChars s.data)) = String.mk (trimChars s.data)
  rw [trimChars_idem]

theorem jsStartsWith_append_self (t : String) :
    jsStartsWith ("fileSearchStores/" ++ t) "fileSearchStores/" = true := by
  show ("fileSearchStores/".data).isPrefixOf (("fileSearchStores/" ++ t).data) = true
  rw [String.data_append]
  exact isPrefixOf_self_append _ _

theorem jsTrim_append_jsTrim (s : String) :
    jsTrim ("fileSearchStores/" ++ jsTrim s) = "fileSearchStores/" ++ jsTrim s := by
  have hd : ("fileSearchStores/" ++ jsTrim s).data =
      "fileSearchStores/".data ++ trimChars s.data := by
    rw [String.data_append]; rfl
  show String.mk (trimChars (("fileSearchStores/" ++ jsTrim s).data)) =
    "fileSearchStores/" ++ jsTrim s
  rw [hd, trimChars_storeName_append _ (trimChars_reverse_dropWhile s.data), ← hd]

/-! ## Claim theorems -/

/-- C1, counterexample: with a host configuration whose provider-specific
headers contain the key "x-goog-api-key" (value "host-key"), the effective
headers built by `buildHeaders` for a freshly resolved key "fresh-key" map
the API-key header to the host-supplied value, not to the fresh key: the
claim as stated is false. -/
theorem buildHeaders_host_override_counterexample :
    headerValue (providerHeaders (some hostKeyConfig)) "x-goog-api-key" = some "host-key" ∧
    headerValue (buildHeaders "fresh-key" (some hostKeyConfig)) "x-goog-api-key" =
      some "host-key" ∧
    headerValue (buildHeaders "fresh-key" (some hostKeyConfig)) "x-goog-api-key" ≠
      some "fresh-key" := by
  decide

/-- C1 (amended): in the effective headers built by `buildHeaders` (used by
both `listFileSearchStores` and `queryFileSearch`), host-provided headers
take precedence on every key collision, the API-key header included: the
effective value of "x-goog-api-key" is the host-supplied value when the
host headers contain that key, and the freshly resolved API key otherwise. -/
theorem buildHeaders_apiKey_header (apiKey : String) (config : Option OpenClawConfig) :
    headerValue (buildHeaders apiKey config) "x-goog-api-key" =
      some ((headerValue (providerHeaders config) "x-goog-api-key").getD apiKey) := by
  unfold headerValue buildHeaders
  rw [List.reverse_append, List.find?_append]
  cases h : (providerHeaders config).reverse.find? (fun p => p.fst == "x-goog-api-key") with
  | none => simp [h]
  | some v => simp [h]

/-- C2, counterexample: a plugin configuration with `maxStoresPerQuery = 0`
makes the effective store cap computed by `queryFileSearch` equal to `0`,
which is outside the claimed range `[1, 5]`. -/
theorem effectiveMaxStores_zero_counterexample :
    effectiveMaxStores (some 0) = 0 ∧ ¬ (1 ≤ effectiveMaxStores (some 0)) := by
  decide

/-- C2 (amended): the effective store cap computed by `queryFileSearch` lies
in `[1, MAX_STORES_HARD_LIMIT]` whenever `maxStoresPerQuery` is absent or at
least `1`; a configured value `k ≤ 0` is not clamped from below — the cap
then equals `k` itself. -/
theorem effectiveMaxStores_range (m : Option Int) (k : Int)
    (h : ∀ j, m = some j → 1 ≤ j) (hk : k ≤ 0) :
    (1 ≤ effectiveMaxStores m ∧ effectiveMaxStores m ≤ MAX_STORES_HARD_LIMIT) ∧
    effectiveMaxStores (some k) = k := by
  unfold effectiveMaxStores MAX_STORES_HARD_LIMIT at *
  constructor
  · cases m with
    | none => simp
    | some j =>
      have := h j rfl
      simp only [Option.getD_some]
      constructor
      · exact le_min this (by omega)
      · exact min_le_right _ _
  · simp only [Option.getD_some]
    omega

/-- C2 witness: instantiating the amended range statement at the
configured value `3` (and degenerate value `0`). -/
theorem effectiveMaxStores_range_witness :
    (1 ≤ effectiveMaxStores (some 3) ∧ effectiveMaxStores (some 3) ≤ MAX_STORES_HARD_LIMIT) ∧
    effectiveMaxStores (some 0) = 0 :=
  effectiveMaxStores_range (some 3) 0 (by intro j hj; injection hj with h2; omega) (by decide)

/-- C3 (confirmed): a configured `maxStoresPerQuery` strictly above the hard
limit yields an effective cap equal to the hard limit; the cap never exceeds
the hard limit for any configuration, and configuration can only lower the
cap relative to the unconfigured default. -/
theorem effectiveMaxStores_hard_cap (m : Int) (opt : Option Int)
    (h : MAX_STORES_HARD_LIMIT < m) :
    effectiveMaxStores (some m) = MAX_STORES_HARD_LIMIT ∧
    effectiveMaxStores opt ≤ MAX_STORES_HARD_LIMIT ∧
    effectiveMaxStores opt ≤ effectiveMaxStores none := by
  unfold effectiveMaxStores MAX_STORES_HARD_LIMIT at *
  refine ⟨?_, min_le_right _ _, ?_⟩
  · simp only [Option.getD_some]
    omega
  · cases opt with
    | none => exact le_refl _
    | some j => simp only [Option.getD_some, Option.getD_none]; omega

/-- C3 witness: a configuration requesting `7` stores per query is clamped
to the hard limit `5`. -/
theorem effectiveMaxStores_hard_cap_witness :
    MAX_STORES_HARD_LIMIT < 7 ∧
    (effectiveMaxStores (some 7) = MAX_STORES_HARD_LIMIT ∧
     effectiveMaxStores (some 7) ≤ MAX_STORES_HARD_LIMIT ∧
     effectiveMaxStores (some 7) ≤ effectiveMaxStores none) :=
  ⟨by decide, effectiveMaxStores_hard_cap 7 (some 7) (by decide)⟩

/-- C4, counterexample: with an empty store list the core raises the
validation message "At least one store name is required" (capital "A"),
which is not the string "at least one store name is required" quoted by the
claim. -/
theorem query_store_message_counterexample :
    queryFileSearchPrep (.ok "key") "q" [] none none none =
      .error (.validation "At least one store name is required") ∧
    ("At least one store name is required" : String) ≠
      "at least one store name is required" := by
  decide

/-- C4 (amended): a blank query fails at the tool layer with the validation
message "query is required" (so the core, and hence the network, is never
reached), and an empty store list fails inside the core `queryFileSearch`
with the validation message "At least one store name is required"; in both
cases the result is an error, so no `QueryRequest` is produced and no HTTP
request to the provider is made. -/
theorem query_validation_before_network
    (credA : Except String String) (queryA : String) (storesA : List String)
    (mA : Option String) (cA : Option OpenClawConfig) (pA : Option PluginCfg)
    (apiKey queryB : String) (mB : Option String)
    (cB : Option OpenClawConfig) (pB : Option PluginCfg)
    (hq : jsTrim queryA = "") :
    queryToolPrep credA queryA storesA mA cA pA =
      .error (.validation "query is required") ∧
    queryFileSearchPrep (.ok apiKey) queryB [] mB cB pB =
      .error (.validation "At least one store name is required") := by
  constructor
  · unfold queryToolPrep queryToolValidate
    rw [hq]
    rfl
  · unfold queryFileSearchPrep jsSliceFrom0
    simp

/-- C4 witness: the whitespace-only query "  " fails at the tool layer and
the empty store list fails in the core. -/
theorem query_validation_before_network_witness :
    queryToolPrep (.ok "key") "  " ["s"] none none none =
      .error (.validation "query is required") ∧
    queryFileSearchPrep (.ok "key") "q" [] none none none =
      .error (.validation "At least one store name is required") :=
  query_validation_before_network (.ok "key") "  " ["s"] none none none
    "key" "q" none none none (by decide)

/-- C5 (confirmed): whenever the store list is longer than the effective cap
(for any configuration whose `maxStoresPerQuery` is absent or at least `1`,
so that the effective cap is a genuine `EffectiveConfig.maxStores` value in
`[1, 5]`), `queryFileSearch` succeeds — no error, and the result carries no
warning — and the store-name list placed in the request is exactly the first
`cap` entries of the input, in their original order, normalized. -/
theorem query_truncation (apiKey query : String) (stores : List String)
    (modelOverride : Option String) (config : Option OpenClawConfig) (cfg : PluginCfg)
    (hcap : ∀ k, cfg.maxStoresPerQuery = some k → 1 ≤ k)
    (hlen : effectiveMaxStores cfg.maxStoresPerQuery < (stores.length : Int)) :
    queryFileSearchPrep (.ok apiKey) query stores modelOverride config (some cfg) =
      .ok { apiKey := apiKey
            headers := buildHeaders apiKey config
            timeoutMs := cfg.timeoutMs.getD DEFAULT_TIMEOUT_MS
            model := resolveModel modelOverride cfg.defaultModel
            queryText := query
            storeNames := (stores.take (effectiveMaxStores cfg.maxStoresPerQuery).toNat).map
              normalizeStoreName } ∧
    ((stores.take (effectiveMaxStores cfg.maxStoresPerQuery).toNat).map
        normalizeStoreName).length = (effectiveMaxStores cfg.maxStoresPerQuery).toNat := by
  have h1 : 1 ≤ effectiveMaxStores cfg.maxStoresPerQuery := by
    rcases hc : cfg.maxStoresPerQuery with _ | k
    · simp [effectiveMaxStores, hc, MAX_STORES_HARD_LIMIT]
    · have := hcap k hc
      simp only [effectiveMaxStores, hc, Option.getD_some, MAX_STORES_HARD_LIMIT]
      omega
  have hslice : jsSliceFrom0 stores (effectiveMaxStores cfg.maxStoresPerQuery) =
      stores.take (effectiveMaxStores cfg.maxStoresPerQuery).toNat := by
    unfold jsSliceFrom0
    rw [if_neg (by omega)]
  have hlen2 : ((stores.take (effectiveMaxStores cfg.maxStoresPerQuery).toNat).map
      normalizeStoreName).length = (effectiveMaxStores cfg.maxStoresPerQuery).toNat := by
    rw [List.length_map, List.length_take]
    omega
  refine ⟨?_, hlen2⟩
  unfold queryFileSearchPrep
  simp only [Option.getD_some, hslice]
  rw [if_neg ?_]
  intro habs
  have := List.isEmpty_iff.mp habs
  rw [this] at hlen2
  simp at hlen2
  omega

/-- C5 witness: six stores with a configured cap of `2` produce a request
naming exactly the first two stores, normalized, in order. -/
theorem query_truncation_witness :
    queryFileSearchPrep (.ok "key") "q" ["a", "b", "c", "d", "e", "f"] none none
        (some { maxStoresPerQuery := some 2 }) =
      .ok { apiKey := "key"
            headers := buildHeaders "key" none
            timeoutMs := DEFAULT_TIMEOUT_MS
            model := DEFAULT_MODEL
            queryText := "q"
            storeNames := ["fileSearchStores/a", "fileSearchStores/b"] } ∧
    (["fileSearchStores/a", "fileSearchStores/b"] : List String).length = 2 := by
  have h := query_truncation "key" "q" ["a", "b", "c", "d", "e", "f"] none none
    { maxStoresPerQuery := some 2 }
    (by intro k hk; injection hk with h2; omega) (by decide)
  constructor
  · rw [h.1]
    decide
  · decide

/-- C7 (confirmed): the model used by `queryFileSearch` follows the
three-level precedence — a per-call override that is non-empty after
trimming always wins over any configured default; when the override is
absent (or trims to empty) a configured default that is non-empty after
trimming wins; when both are absent (or trim to empty) the fixed
`DEFAULT_MODEL` is used. -/
theorem model_precedence (o d : String) (oe de : Option String)
    (ho : jsTrim o ≠ "") (hd : jsTrim d ≠ "")
    (hoe : ∀ s, oe = some s → jsTrim s = "") (hde : ∀ s, de = some s → jsTrim s = "") :
    (∀ x, resolveModel (some o) x = jsTrim o) ∧
    resolveModel oe (some d) = jsTrim d ∧
    resolveModel oe de = DEFAULT_MODEL := by
  refine ⟨fun x => ?_, ?_, ?_⟩
  · simp [resolveModel, jsOr, ho]
  · rcases oe with _ | s
    · simp [resolveModel, jsOr, hd]
    · have hs := hoe s rfl
      simp [resolveModel, jsOr, hs, hd]
  · rcases oe with _ | s <;> rcases de with _ | t
    · rfl
    · have ht := hde t rfl
      simp [resolveModel, jsOr, ht]
    · have hs := hoe s rfl
      simp [resolveModel, jsOr, hs]
    · have hs := hoe s rfl
      have ht := hde t rfl
      simp [resolveModel, jsOr, hs, ht]

/-- C7 witness: three distinct values "model-a" (per-call), "model-b"
(configured default) and the fixed default — the highest-priority present
value is chosen in each of the three scenarios. -/
theorem model_precedence_witness :
    resolveModel (some "model-a") (some "model-b") = jsTrim "model-a" ∧
    resolveModel none (some "model-b") = jsTrim "model-b" ∧
    resolveModel none none = DEFAULT_MODEL := by
  have h := model_precedence "model-a" "model-b" none none
    (by decide) (by decide) (by intro s hs; cases hs) (by intro s hs; cases hs)
  exact ⟨h.1 (some "model-b"), h.2.1, h.2.2⟩

/-- C9 (confirmed): on any non-success HTTP status, both
`listFileSearchStores` and `queryFileSearch` fail with an error whose
message embeds the numeric status code and the raw response body text, and
return no (partial) result. -/
theorem non_success_status_error (status : Nat) (bodyText : String)
    (stores : Option (List FileSearchStore)) (data : GenerateContentResponse)
    (h : resOk status = false) :
    listStoresHandleResponse status bodyText stores =
      .error ("Gemini listFileSearchStores failed: " ++ toString status ++ " " ++ bodyText) ∧
    queryHandleResponse status bodyText data =
      .error ("Gemini generateContent failed: " ++ toString status ++ " " ++ bodyText) := by
  unfold listStoresHandleResponse queryHandleResponse
  rw [h]
  exact ⟨rfl, rfl⟩

/-- C9 witness: a 429 response makes both calls fail with a message that
embeds "429" and the raw body. -/
theorem non_success_status_error_witness :
    resOk 429 = false ∧
    (listStoresHandleResponse 429 "rate limited" none =
      .error ("Gemini listFileSearchStores failed: " ++ toString 429 ++ " " ++ "rate limited") ∧
    queryHandleResponse 429 "rate limited" {} =
      .error ("Gemini generateContent failed: " ++ toString 429 ++ " " ++ "rate limited")) :=
  ⟨by decide, non_success_status_error 429 "rate limited" none {} (by decide)⟩

/-- C10 (confirmed): `queryFileSearch` consumes the credential result before
validating the store list, so when the credential resolver fails the
credential error is surfaced even for a store list that is empty after
truncation, and the validation error "At least one store name is required"
is raised only when credential resolution succeeded; in both cases the
result is an error, so no HTTP request is issued. -/
theorem credential_resolved_before_validation (e apiKey query : String)
    (stores : List String) (modelOverride : Option String)
    (config : Option OpenClawConfig) (pluginCfg : Option PluginCfg)
    (hempty : (jsSliceFrom0 stores
        (effectiveMaxStores ((pluginCfg.getD {}).maxStoresPerQuery))).map
          normalizeStoreName = []) :
    queryFileSearchPrep (.error e) query stores modelOverride config pluginCfg =
      .error (.credential e) ∧
    queryFileSearchPrep (.ok apiKey) query stores modelOverride config pluginCfg =
      .error (.validation "At least one store name is required") := by
  constructor
  · rfl
  · simp only [queryFileSearchPrep]
    rw [hempty]
    rfl

/-- C10 witness: with an empty store list, a failed credential resolution
surfaces the credential error rather than the store validation error, while
a successful one surfaces the validation error. -/
theorem credential_resolved_before_validation_witness :
    queryFileSearchPrep (.error "no google credential") "q" [] none none none =
      .error (.credential "no google credential") ∧
    queryFileSearchPrep (.ok "key2") "q" [] none none none =
      .error (.validation "At least one store name is required") :=
  credential_resolved_before_validation "no google credential" "key2" "q" [] none none none
    (by decide)

/-- C6, counterexample: the identifier "a/fileSearchStores/b" contains the
canonical resource-name pre-string "fileSearchStores/" yet `normalizeStoreName`
is not the identity on it — the code tests `startsWith`, not containment. -/
theorem normalizeStoreName_contains_counterexample :
    ("a/fileSearchStores/b" : String) = "a/" ++ "fileSearchStores/" ++ "b" ∧
    normalizeStoreName "a/fileSearchStores/b" ≠ "a/fileSearchStores/b" := by
  decide

/-- C6 (amended): writing `t` for the trimmed identifier (whitespace is
trimmed before the check), `normalizeStoreName` returns `t` itself when `t`
STARTS WITH "fileSearchStores/" (identity up to trimming), and
"fileSearchStores/" ++ `t` when it does not; and normalization is
idempotent: normalizing twice equals normalizing once. -/
theorem normalizeStoreName_spec (s : String) :
    (jsStartsWith (jsTrim s) "fileSearchStores/" = true →
      normalizeStoreName s = jsTrim s) ∧
    (jsStartsWith (jsTrim s) "fileSearchStores/" = false →
      normalizeStoreName s = "fileSearchStores/" ++ jsTrim s) ∧
    normalizeStoreName (normalizeStoreName s) = normalizeStoreName s := by
  refine ⟨fun h => by simp [normalizeStoreName, h],
          fun h => by simp [normalizeStoreName, h], ?_⟩
  by_cases h : jsStartsWith (jsTrim s) "fileSearchStores/" = true
  · have h1 : normalizeStoreName s = jsTrim s := by simp [normalizeStoreName, h]
    rw [h1]
    simp [normalizeStoreName, jsTrim_idem, h]
  · have hb : jsStartsWith (jsTrim s) "fileSearchStores/" = false := by
      simpa using h
    have h1 : normalizeStoreName s = "fileSearchStores/" ++ jsTrim s := by
      simp [normalizeStoreName, hb]
    rw [h1]
    unfold normalizeStoreName
    rw [jsTrim_append_jsTrim, jsStartsWith_append_self]
    simp

/-- C6 witness: an already-canonical name passes through unchanged, an
unqualified name " y " is trimmed and prefixed, and normalizing twice equals
normalizing once. -/
theorem normalizeStoreName_spec_witness :
    normalizeStoreName "fileSearchStores/x" = jsTrim "fileSearchStores/x" ∧
    normalizeStoreName " y " = "fileSearchStores/" ++ jsTrim " y " ∧
    normalizeStoreName (normalizeStoreName " y ") = normalizeStoreName " y " :=
  ⟨(normalizeStoreName_spec "fileSearchStores/x").1 (by decide),
   (normalizeStoreName_spec " y ").2.1 (by decide),
   (normalizeStoreName_spec " y ").2.2⟩

theorem chunkToSource_eq_spec (chunk : GroundingChunk) :
    chunkToSource chunk = specChunkSource chunk := by
  cases hc : chunk.retrievedContext with
  | none => simp [chunkToSource, specChunkSource, hc]
  | some ctx =>
    obtain ⟨u, t⟩ := ctx
    rcases u with _ | us <;> rcases t with _ | ts <;>
      simp [chunkToSource, specChunkSource, hc, jsTruthy, Option.or]

/-- C8 (confirmed): for every successful provider response, the answer
produced by `queryFileSearch` is the concatenation of all text parts of the
first candidate's content, trimmed (the empty string when no candidate
exists), and the sources are, in chunk order, one source per grounding
chunk whose retrieved-context has a non-empty URI or non-empty title, with
the title falling back to the URI and the URI falling back to the empty
string, other chunks being dropped — both stated by equality of the code's
extraction with definitions written from the spec's words. -/
theorem response_extraction_matches_spec (data : GenerateContentResponse) :
    extractAnswer data = specAnswer data ∧ extractSources data = specSources data := by
  constructor
  · unfold extractAnswer specAnswer firstCandidate
    cases hd : data.candidates with
    | none => rfl
    | some cs =>
      cases cs with
      | nil => rfl
      | cons c rest =>
        simp only [Option.getD_some, List.head?_cons, Option.some_bind]
        cases hp : c.content.bind CandidateContent.parts with
        | none => simp [hp, jsTrim, trimChars, trimRightChars, trimLeftChars]
        | some ps => simp [hp]
  · unfold extractSources specSources
    rw [show chunkToSource = specChunkSource from funext chunkToSource_eq_spec]

end OpenClaw.GeminiFileSearch
